import Mathlib

/-!
Verification of the calculator core of the `calculadoras` repository
(`src/js/functions.js`): the numeric normalizer and the four formula
functions (critical overhang angle, flow calibration, layer-height
ratio "PBC", volumetric speed).

Modelling conventions (shallow embedding):
* JavaScript numbers are idealized: finite doubles become exact real
  numbers, `Infinity`/`-Infinity` and `NaN` become explicit
  constructors of the `JSVal` type.  Signed zeros are collapsed to the
  single real `0` (every value a calculator consumes has passed through
  `normalizeNumber`, which turns `-0` into `0`).
* `parseFloat(field.value)` on a form field is modelled as the already
  parsed value: a `JSVal` (with `JSVal.nan` for text that fails to
  parse), or an `Option ℚ` in the purely rational flow calculator.
* `toFixed` rounds to nearest with ties toward positive infinity
  (ECMAScript: "pick the larger n"), which is Mathlib's `round`;
  `Math.round` has the same tie rule.
* Each calculator becomes a pure function from its parsed inputs to a
  small outcome datatype recording which message path the code took and
  which numeric value it displays.
-/

/-- `normalizeNumber(value, decimalPlaces = 2)` from `functions.js`:
`parseFloat(parseFloat(value).toFixed(decimalPlaces))`, i.e. rounding
to `decimalPlaces` fractional digits.  Stated generically so that it
can be used at `ℝ` (trigonometric calculators) and at `ℚ` (flow
calculator). -/
def normalizeNumber {α : Type} [LinearOrderedField α] [FloorRing α]
    (value : α) (decimalPlaces : ℕ := 2) : α :=
  ((round (value * 10 ^ decimalPlaces) : ℤ) : α) / 10 ^ decimalPlaces

/-- If `x` already has at most `p` fractional digits (witnessed by
`x * 10^p` being the integer `n`), normalization leaves it unchanged. -/
theorem normalizeNumber_eq_self {α : Type} [LinearOrderedField α] [FloorRing α]
    (x : α) (p : ℕ) (n : ℤ) (h : x * 10 ^ p = (n : α)) :
    normalizeNumber x p = x := by
  have hpow : (10 : α) ^ p ≠ 0 := by positivity
  unfold normalizeNumber
  rw [h, round_intCast]
  field_simp at h ⊢
  linarith [h]

/-- The output of `normalizeNumber` times `10^p` is an integer. -/
theorem normalizeNumber_mul_pow {α : Type} [LinearOrderedField α] [FloorRing α]
    (x : α) (p : ℕ) :
    normalizeNumber x p * 10 ^ p = ((round (x * 10 ^ p) : ℤ) : α) := by
  have hpow : (10 : α) ^ p ≠ 0 := by positivity
  unfold normalizeNumber
  field_simp

theorem normalizeNumber_idem {α : Type} [LinearOrderedField α] [FloorRing α]
    (x : α) (p : ℕ) :
    normalizeNumber (normalizeNumber x p) p = normalizeNumber x p :=
  normalizeNumber_eq_self _ p _ (normalizeNumber_mul_pow x p)

/-- A JavaScript number: a finite (idealized exact real) value, a signed
infinity, or `NaN`. -/
inductive JSVal : Type
  | fin (x : ℝ)
  | inf (pos : Bool)
  | nan

namespace JSVal

/-- `isNaN(v)`. -/
def isNaN : JSVal → Bool
  | nan => true
  | _ => false

/-- `v` is an ordinary finite number. -/
def isFinite : JSVal → Bool
  | fin _ => true
  | _ => false

/-- IEEE multiplication (finite values exact, `0 * ∞ = NaN`). -/
noncomputable def mul : JSVal → JSVal → JSVal
  | nan, _ => nan
  | _, nan => nan
  | fin x, fin y => fin (x * y)
  | inf p, fin y => if y = 0 then nan else if 0 < y then inf p else inf (!p)
  | fin x, inf p => if x = 0 then nan else if 0 < x then inf p else inf (!p)
  | inf p, inf q => if p = q then inf true else inf false

/-- IEEE division with an unsigned zero: a nonzero finite value divided
by zero gives the infinity carrying the numerator's sign (JS division by
`+0`), `0 / 0 = NaN`, `∞ / ∞ = NaN`. -/
noncomputable def div : JSVal → JSVal → JSVal
  | nan, _ => nan
  | _, nan => nan
  | fin x, fin y =>
      if y = 0 then (if x = 0 then nan else if 0 < x then inf true else inf false)
      else fin (x / y)
  | fin _, inf _ => fin 0
  | inf p, fin y => if 0 ≤ y then inf p else inf (!p)
  | inf _, inf _ => nan

/-- IEEE subtraction. -/
noncomputable def sub : JSVal → JSVal → JSVal
  | nan, _ => nan
  | _, nan => nan
  | fin x, fin y => fin (x - y)
  | fin _, inf p => inf (!p)
  | inf p, fin _ => inf p
  | inf p, inf q => if p = q then nan else inf p

/-- `Math.atan`: saturates at `±π/2` on the infinities. -/
noncomputable def atan : JSVal → JSVal
  | nan => nan
  | inf true => fin (Real.pi / 2)
  | inf false => fin (-(Real.pi / 2))
  | fin x => fin (Real.arctan x)

/-- `Math.tan` (`NaN` on the infinities). -/
noncomputable def tan : JSVal → JSVal
  | fin x => fin (Real.tan x)
  | _ => nan

/-- `Math.abs`. -/
noncomputable def abs : JSVal → JSVal
  | fin x => fin |x|
  | inf _ => inf true
  | nan => nan

/-- `Math.round`: round to nearest, ties toward `+∞`. -/
noncomputable def jround : JSVal → JSVal
  | fin x => fin ((round x : ℤ) : ℝ)
  | inf p => inf p
  | nan => nan

/-- JavaScript `<` (any comparison with `NaN` is false). -/
noncomputable def lt : JSVal → JSVal → Bool
  | nan, _ => false
  | _, nan => false
  | fin x, fin y => decide (x < y)
  | fin _, inf p => p
  | inf p, fin _ => !p
  | inf p, inf q => !p && q

/-- `normalizeNumber` lifted to JavaScript values: `NaN.toFixed` is
`"NaN"` and `Infinity.toFixed` is `"Infinity"`, both of which
`parseFloat` maps back to themselves. -/
noncomputable def normalize (v : JSVal) (p : ℕ := 2) : JSVal :=
  match v with
  | fin x => fin (normalizeNumber x p)
  | v => v

theorem isNaN_fin (x : ℝ) : (fin x).isNaN = false := rfl

theorem mul_fin_fin (x y : ℝ) : mul (fin x) (fin y) = fin (x * y) := rfl

theorem sub_fin_fin (x y : ℝ) : sub (fin x) (fin y) = fin (x - y) := rfl

theorem div_fin_fin (x y : ℝ) (hy : y ≠ 0) :
    div (fin x) (fin y) = fin (x / y) := by
  simp [div, hy]

theorem div_fin_zero_pos (x : ℝ) (hx : 0 < x) :
    div (fin x) (fin 0) = inf true := by
  simp [div, hx.ne', hx]

theorem atan_fin (x : ℝ) : atan (fin x) = fin (Real.arctan x) := rfl

theorem tan_fin (x : ℝ) : tan (fin x) = fin (Real.tan x) := rfl

theorem abs_fin (x : ℝ) : abs (fin x) = fin |x| := rfl

theorem jround_fin (x : ℝ) : jround (fin x) = fin ((round x : ℤ) : ℝ) := rfl

theorem lt_fin_fin (x y : ℝ) : lt (fin x) (fin y) = decide (x < y) := rfl

theorem normalize_fin (x : ℝ) (p : ℕ) :
    normalize (fin x) p = fin (normalizeNumber x p) := rfl

theorem normalize_idem (v : JSVal) (p : ℕ) :
    normalize (normalize v p) p = normalize v p := by
  cases v <;> simp [normalize, normalizeNumber_idem]

end JSVal

/-- C8: normalization is idempotent: `normalize(normalize(x, p), p) =
normalize(x, p)` for every value `x` that parses as a number (a finite
real at precision `p`, stated both for the real- and rational-valued
instances of `normalizeNumber` and for the lifted `JSVal.normalize`). -/
theorem normalizeNumber_idempotent :
    (∀ (x : ℝ) (p : ℕ), normalizeNumber (normalizeNumber x p) p = normalizeNumber x p) ∧
    (∀ (x : ℚ) (p : ℕ), normalizeNumber (normalizeNumber x p) p = normalizeNumber x p) ∧
    (∀ (x : ℝ) (p : ℕ),
      JSVal.normalize (JSVal.normalize (JSVal.fin x) p) p = JSVal.normalize (JSVal.fin x) p) :=
  ⟨fun x p => normalizeNumber_idem x p,
   fun x p => normalizeNumber_idem x p,
   fun x p => JSVal.normalize_idem (JSVal.fin x) p⟩

/-- Outcome of `calculateNewFlow`: the "fill in all 20 measurements"
message, the "supply width and flow" message, or the displayed new flow
percentage. -/
inductive FlowOutcome : Type
  | incompleteMeasurements
  | missingParameters
  | newFlow (value : ℚ)
deriving DecidableEq

/-- The `measurements` array built by `calculateNewFlow`: each of the 20
`wall{i}_{j}` fields is normalized and pushed only when it is not
`NaN` (`none` models a field whose text does not parse). -/
def flowMeasurements (walls : Fin 20 → Option ℚ) : List ℚ :=
  (List.finRange 20).filterMap fun i => (walls i).map fun v => normalizeNumber v

/-- `calculateNewFlow()` from `functions.js`: demands all 20
measurements, averages them, then rescales the configured flow by
`extrusionWidth / average`. -/
def calculateNewFlow (walls : Fin 20 → Option ℚ) (widthRaw flowRaw : Option ℚ) :
    FlowOutcome :=
  let measurements := flowMeasurements walls
  if measurements.length ≠ 20 then .incompleteMeasurements
  else
    let avgMeasurements := normalizeNumber (measurements.sum / (measurements.length : ℚ))
    match widthRaw.map (fun v => normalizeNumber v), flowRaw.map (fun v => normalizeNumber v) with
    | some extrusionWidth, some configuredFlow =>
        .newFlow (normalizeNumber ((extrusionWidth / avgMeasurements) * configuredFlow))
    | _, _ => .missingParameters

theorem length_filterMap_eq_sum {α β : Type} (l : List α) (f : α → Option β) :
    (l.filterMap f).length = (l.map fun a => if (f a).isSome then 1 else 0).sum := by
  induction l with
  | nil => rfl
  | cons a l ih => cases h : f a <;> simp [List.filterMap_cons, h, ih, Nat.add_comm]

theorem sum_filterMap_eq_sum {α : Type} (l : List α) (f : α → Option ℚ) :
    (l.filterMap f).sum = (l.map fun a => (f a).getD 0).sum := by
  induction l with
  | nil => rfl
  | cons a l ih => cases h : f a <;> simp [List.filterMap_cons, h, ih]

theorem filterMap_pure {α β : Type} (l : List α) (g : α → β) :
    (l.filterMap fun a => some (g a)) = l.map g := by
  induction l with
  | nil => rfl
  | cons a l ih => simp [List.filterMap_cons, ih]

theorem flowMeasurements_length (walls : Fin 20 → Option ℚ) :
    (flowMeasurements walls).length = ∑ i : Fin 20, if (walls i).isSome then 1 else 0 := by
  rw [flowMeasurements, length_filterMap_eq_sum, Fin.sum_univ_def]
  simp

theorem flowMeasurements_sum (walls : Fin 20 → Option ℚ) :
    (flowMeasurements walls).sum
      = ∑ i : Fin 20, ((walls i).map fun v => normalizeNumber v).getD 0 := by
  rw [flowMeasurements, sum_filterMap_eq_sum, Fin.sum_univ_def]

theorem flowMeasurements_length_eq_iff (walls : Fin 20 → Option ℚ) :
    (flowMeasurements walls).length = 20 ↔ ∀ i, (walls i).isSome = true := by
  rw [flowMeasurements_length, Finset.sum_boole]
  constructor
  · intro h i
    have hsub : Finset.univ.filter (fun i => (walls i).isSome = true) = Finset.univ := by
      apply Finset.eq_univ_of_card
      simpa using h
    have := Finset.eq_univ_iff_forall.mp hsub i
    simpa using this
  · intro h
    have : Finset.univ.filter (fun i => (walls i).isSome = true) = Finset.univ :=
      Finset.filter_eq_self.mpr fun i _ => h i
    simp [this]

/-- C6: the flow calibration calculator answers the
incomplete-measurements message exactly when not all 20 wall
measurements parse as numbers; the incomplete outcome carries no
numeric value, and a flow is computed only when all 20 parse. -/
theorem calculateNewFlow_incomplete_iff (walls : Fin 20 → Option ℚ)
    (widthRaw flowRaw : Option ℚ) :
    calculateNewFlow walls widthRaw flowRaw = .incompleteMeasurements
      ↔ ¬ ∀ i, (walls i).isSome = true := by
  rw [← flowMeasurements_length_eq_iff]
  unfold calculateNewFlow
  by_cases h : (flowMeasurements walls).length = 20
  · simp only [h, ne_eq, not_true_eq_false, if_false]
    constructor
    · intro hco
      exfalso
      cases hw : widthRaw.map (fun v => normalizeNumber v) <;>
        cases hf : flowRaw.map (fun v => normalizeNumber v) <;>
          simp [hw, hf] at hco
    · intro hco
      exact hco.elim
  · simp [h]

/-- The normalized arithmetic mean of the 20 parsed wall measurements,
as `calculateNewFlow` computes it. -/
def flowMean (ws : Fin 20 → ℚ) : ℚ :=
  normalizeNumber ((∑ i : Fin 20, normalizeNumber (ws i)) / 20)

/-- C4: when all 20 measurements and both slicer parameters parse, the
flow calibration calculator outputs `(w / m) * f` (normalized), `m`
being the arithmetic mean of the 20 measurements; in particular twenty
measurements of 0.42 with width 0.40 and flow 100 give 95.24. -/
theorem calculateNewFlow_formula (ws : Fin 20 → ℚ) (w f : ℚ) :
    calculateNewFlow (fun i => some (ws i)) (some w) (some f)
        = .newFlow (normalizeNumber ((normalizeNumber w / flowMean ws) * normalizeNumber f))
      ∧ calculateNewFlow (fun _ => some 0.42) (some 0.4) (some 100) = .newFlow 95.24 := by
  have hgen : ∀ (vs : Fin 20 → ℚ) (a b : ℚ),
      calculateNewFlow (fun i => some (vs i)) (some a) (some b)
        = .newFlow (normalizeNumber ((normalizeNumber a / flowMean vs) * normalizeNumber b)) := by
    intro vs a b
    have hmeas : flowMeasurements (fun i => some (vs i))
        = (List.finRange 20).map fun i => normalizeNumber (vs i) := by
      rw [flowMeasurements]
      simp only [Option.map_some']
      exact filterMap_pure _ _
    have hlen : (flowMeasurements (fun i => some (vs i))).length = 20 := by
      simp [hmeas]
    have hsum : (flowMeasurements (fun i => some (vs i))).sum
        = ∑ i : Fin 20, normalizeNumber (vs i) := by
      rw [hmeas, ← Fin.sum_univ_def]
    unfold calculateNewFlow
    simp only [hlen, hsum, flowMean, ne_eq, not_true_eq_false, if_false,
      Option.map_some']
    norm_num
  refine ⟨hgen ws w f, ?_⟩
  rw [hgen (fun _ => 0.42) 0.4 100]
  have hval : normalizeNumber (0.42 : ℚ) = 0.42 :=
    normalizeNumber_eq_self _ _ 42 (by norm_num)
  have hm : flowMean (fun _ => (0.42 : ℚ)) = 0.42 := by
    unfold flowMean
    rw [Finset.sum_const, Finset.card_univ]
    simp only [Fintype.card_fin, hval, nsmul_eq_mul]
    have h20 : ((20 : ℕ) : ℚ) * 0.42 / 20 = 0.42 := by norm_num
    rw [h20, hval]
  rw [hm, normalizeNumber_eq_self (0.4 : ℚ) 2 40 (by norm_num),
    normalizeNumber_eq_self (100 : ℚ) 2 10000 (by norm_num)]
  have harg : (0.4 : ℚ) / 0.42 * 100 = 2000 / 21 := by norm_num
  rw [harg]
  have hround : round ((2000 / 21 : ℚ) * 10 ^ 2) = 9524 := by
    rw [round_eq]
    rw [show ((2000 / 21 : ℚ) * 10 ^ 2 + 1 / 2) = 400021 / 42 by norm_num]
    rw [Int.floor_eq_iff]
    constructor <;> norm_num
  unfold normalizeNumber
  rw [hround]
  norm_num

/-- C9: the flow calibration result does not depend on the order of
the 20 wall measurements: permuting the measurement fields (with the
same configured width and flow) yields the same outcome. -/
theorem calculateNewFlow_permutation_invariant (σ : Equiv.Perm (Fin 20))
    (walls : Fin 20 → Option ℚ) (widthRaw flowRaw : Option ℚ) :
    calculateNewFlow (fun i => walls (σ i)) widthRaw flowRaw
      = calculateNewFlow walls widthRaw flowRaw := by
  have hl : (flowMeasurements (fun i => walls (σ i))).length
      = (flowMeasurements walls).length := by
    rw [flowMeasurements_length, flowMeasurements_length]
    exact Fintype.sum_equiv σ _ _ fun i => rfl
  have hs : (flowMeasurements (fun i => walls (σ i))).sum
      = (flowMeasurements walls).sum := by
    rw [flowMeasurements_sum, flowMeasurements_sum]
    exact Fintype.sum_equiv σ _ _ fun i => rfl
  unfold calculateNewFlow
  simp only [hl, hs]

theorem JSVal.normalize_inf (b : Bool) (p : ℕ) :
    JSVal.normalize (JSVal.inf b) p = JSVal.inf b := rfl

theorem JSVal.normalize_nan (p : ℕ) : JSVal.normalize JSVal.nan p = JSVal.nan := rfl

/-- Normalizing `c - y` changes nothing when `y` is itself a normalized
value (both operands carry at most `p` fractional digits). -/
theorem normalizeNumber_intCast_sub_norm {α : Type} [LinearOrderedField α] [FloorRing α]
    (c : ℤ) (x : α) (p : ℕ) :
    normalizeNumber ((c : α) - normalizeNumber x p) p = (c : α) - normalizeNumber x p := by
  apply normalizeNumber_eq_self _ _ (c * 10 ^ p - round (x * 10 ^ p))
  rw [sub_mul, normalizeNumber_mul_pow]
  push_cast
  ring

/-- Slicer convention selector of the overhang calculator (radio
`slicerSoftware`; the handler defaults to Orca when none is checked). -/
inductive Slicer : Type
  | orca
  | cura
deriving DecidableEq

/-- Outcome of `calculateCriticalExtrusionAngle`: the "insira valores
válidos" message, or a displayed maximum angle labeled for the chosen
slicer. -/
inductive OverhangOutcome : Type
  | invalidInput
  | angleResult (s : Slicer) (angle : JSVal)

/-- `calculateCriticalExtrusionAngle()` from `functions.js`: nozzle
diameter normalized to 1 decimal, layer height to 2; the extrusion
width is taken equal to the nozzle diameter; the Orca convention shows
the complement of the raw angle. -/
noncomputable def calculateCriticalExtrusionAngle
    (nozzleRaw layerRaw : JSVal) (slicer : Slicer) : OverhangOutcome :=
  let nozzleDiameter := nozzleRaw.normalize 1
  let layerHeight := layerRaw.normalize 2
  if nozzleDiameter.isNaN || layerHeight.isNaN then .invalidInput
  else
    let extrusionWidth := nozzleDiameter
    let angleRad := JSVal.atan ((layerHeight.div (extrusionWidth.div (.fin 2))).normalize 2)
    let overhangAngle :=
      ((JSVal.fin 90).sub ((angleRad.mul (.fin 180)).div (.fin Real.pi))).normalize 2
    match slicer with
    | .orca => .angleResult .orca (((JSVal.fin 90).sub overhangAngle).normalize 2)
    | .cura => .angleResult .cura overhangAngle

/-- The raw (Cura-convention) angle the overhang calculator computes:
`90° − degrees(atan(h / (d/2)))`, with the code's normalization steps
made explicit. -/
noncomputable def overhangRawAngle (d h : ℝ) : ℝ :=
  normalizeNumber
    (90 - Real.arctan (normalizeNumber
        (normalizeNumber h 2 / (normalizeNumber d 1 / 2)) 2) * 180 / Real.pi) 2

theorem JSVal.atan_inf_pos : JSVal.atan (JSVal.inf true) = .fin (Real.pi / 2) := rfl

theorem normalizeNumber_90_sub (x : ℝ) :
    normalizeNumber ((90 : ℝ) - normalizeNumber x 2) 2 = 90 - normalizeNumber x 2 := by
  have h := normalizeNumber_intCast_sub_norm (α := ℝ) 90 x 2
  push_cast at h
  exact h

/-- C1: with both inputs parsing to positive numbers, the overhang
calculator displays the raw angle `90 − degrees(atan(h / (d/2)))`
under the Cura convention and the complementary angle `90 − rawAngle`
under the Orca convention; for nozzle diameter 0.4 and layer height
0.2 the Orca-convention output is exactly 45°. -/
theorem calculateCriticalExtrusionAngle_conventions (d h : ℝ)
    (hd : 0 < normalizeNumber d 1) (hh : 0 < normalizeNumber h 2) :
    calculateCriticalExtrusionAngle (.fin d) (.fin h) .cura
        = .angleResult .cura (.fin (overhangRawAngle d h))
      ∧ calculateCriticalExtrusionAngle (.fin d) (.fin h) .orca
        = .angleResult .orca (.fin (90 - overhangRawAngle d h))
      ∧ calculateCriticalExtrusionAngle (.fin 0.4) (.fin 0.2) .orca
        = .angleResult .orca (.fin 45) := by
  have hgen : ∀ (a b : ℝ), 0 < normalizeNumber a 1 → 0 < normalizeNumber b 2 →
      calculateCriticalExtrusionAngle (.fin a) (.fin b) .cura
          = .angleResult .cura (.fin (overhangRawAngle a b))
        ∧ calculateCriticalExtrusionAngle (.fin a) (.fin b) .orca
          = .angleResult .orca (.fin (90 - overhangRawAngle a b)) := by
    intro a b ha hb
    have h2 : (JSVal.fin (normalizeNumber a 1)).div (.fin 2)
        = .fin (normalizeNumber a 1 / 2) := JSVal.div_fin_fin _ _ two_ne_zero
    have h3 : (JSVal.fin (normalizeNumber b 2)).div (.fin (normalizeNumber a 1 / 2))
        = .fin (normalizeNumber b 2 / (normalizeNumber a 1 / 2)) :=
      JSVal.div_fin_fin _ _ (div_pos ha two_pos).ne'
    have h4 : ∀ z : ℝ, (JSVal.fin z).div (.fin Real.pi) = .fin (z / Real.pi) :=
      fun z => JSVal.div_fin_fin _ _ Real.pi_ne_zero
    constructor
    · unfold calculateCriticalExtrusionAngle
      simp [JSVal.normalize_fin, JSVal.isNaN_fin, h2, h3, h4, JSVal.atan_fin,
        JSVal.mul_fin_fin, JSVal.sub_fin_fin, overhangRawAngle]
    · unfold calculateCriticalExtrusionAngle
      simp [JSVal.normalize_fin, JSVal.isNaN_fin, h2, h3, h4, JSVal.atan_fin,
        JSVal.mul_fin_fin, JSVal.sub_fin_fin, overhangRawAngle,
        normalizeNumber_90_sub]
  have hn04 : normalizeNumber (0.4 : ℝ) 1 = 0.4 :=
    normalizeNumber_eq_self _ _ 4 (by norm_num)
  have hn02 : normalizeNumber (0.2 : ℝ) 2 = 0.2 :=
    normalizeNumber_eq_self _ _ 20 (by norm_num)
  have hd04 : 0 < normalizeNumber (0.4 : ℝ) 1 := by rw [hn04]; norm_num
  have hh02 : 0 < normalizeNumber (0.2 : ℝ) 2 := by rw [hn02]; norm_num
  have hraw : overhangRawAngle 0.4 0.2 = 45 := by
    unfold overhangRawAngle
    rw [hn04, hn02]
    rw [show (0.2 : ℝ) / (0.4 / 2) = 1 by norm_num]
    rw [normalizeNumber_eq_self (1 : ℝ) 2 100 (by norm_num)]
    rw [Real.arctan_one]
    rw [show Real.pi / 4 * 180 / Real.pi = 45 by
      field_simp
      ring]
    rw [show (90 : ℝ) - 45 = 45 by norm_num]
    exact normalizeNumber_eq_self _ _ 4500 (by norm_num)
  have horca := (hgen 0.4 0.2 hd04 hh02).2
  rw [hraw, show (90 : ℝ) - 45 = 45 by norm_num] at horca
  exact ⟨(hgen d h hd hh).1, (hgen d h hd hh).2, horca⟩

/-- C10: a nozzle diameter that parses to 0 with a positive layer
height is not rejected as an input error: the ratio `h / (d/2)`
becomes `Infinity`, `atan` saturates at 90°, and the calculator
displays an ordinary-looking angle — 0° under the Cura convention and
90° under the Orca convention. -/
theorem calculateCriticalExtrusionAngle_zero_nozzle (d h : ℝ)
    (hd : normalizeNumber d 1 = 0) (hh : 0 < normalizeNumber h 2) :
    calculateCriticalExtrusionAngle (.fin d) (.fin h) .cura
        = .angleResult .cura (.fin 0)
      ∧ calculateCriticalExtrusionAngle (.fin d) (.fin h) .orca
        = .angleResult .orca (.fin 90) := by
  have h0 : (JSVal.fin (normalizeNumber d 1)).div (.fin 2) = .fin 0 := by
    rw [hd, JSVal.div_fin_fin 0 2 two_ne_zero]
    norm_num
  have hdiv : (JSVal.fin (normalizeNumber h 2)).div (.fin 0) = .inf true :=
    JSVal.div_fin_zero_pos _ hh
  have h4 : ∀ z : ℝ, (JSVal.fin z).div (.fin Real.pi) = .fin (z / Real.pi) :=
    fun z => JSVal.div_fin_fin _ _ Real.pi_ne_zero
  have hdeg : Real.pi / 2 * 180 / Real.pi = 90 := by
    field_simp
    ring
  have hz : normalizeNumber (0 : ℝ) 2 = 0 :=
    normalizeNumber_eq_self _ _ 0 (by norm_num)
  have h90 : normalizeNumber (90 : ℝ) 2 = 90 :=
    normalizeNumber_eq_self _ _ 9000 (by norm_num)
  constructor
  · unfold calculateCriticalExtrusionAngle
    simp [JSVal.normalize_fin, JSVal.isNaN_fin, h0, hdiv, JSVal.normalize_inf,
      JSVal.atan_inf_pos, JSVal.mul_fin_fin, h4, hdeg, JSVal.sub_fin_fin, hz]
  · unfold calculateCriticalExtrusionAngle
    simp [JSVal.normalize_fin, JSVal.isNaN_fin, h0, hdiv, JSVal.normalize_inf,
      JSVal.atan_inf_pos, JSVal.mul_fin_fin, h4, hdeg, JSVal.sub_fin_fin, hz, h90]

theorem JSVal.lt_fin_fin_false (x y : ℝ) (h : ¬ x < y) :
    JSVal.lt (.fin x) (.fin y) = false := by
  rw [JSVal.lt_fin_fin]
  exact decide_eq_false h

theorem JSVal.lt_fin_fin_true (x y : ℝ) (h : x < y) :
    JSVal.lt (.fin x) (.fin y) = true := by
  rw [JSVal.lt_fin_fin]
  exact decide_eq_true h

/-- If one factor is (positive) zero or `NaN`, a JS product is zero or
`NaN`. -/
theorem JSVal.mul_zero_or_nan (u v : JSVal)
    (h : u = .fin 0 ∨ v = .fin 0 ∨ u.isNaN = true ∨ v.isNaN = true) :
    u.mul v = .fin 0 ∨ (u.mul v).isNaN = true := by
  rcases h with h | h | h | h
  · subst h
    cases v with
    | fin y => left; simp [JSVal.mul]
    | inf b => right; simp [JSVal.mul, JSVal.isNaN]
    | nan => right; simp [JSVal.mul, JSVal.isNaN]
  · subst h
    cases u with
    | fin x => left; simp [JSVal.mul]
    | inf b => right; simp [JSVal.mul, JSVal.isNaN]
    | nan => right; simp [JSVal.mul, JSVal.isNaN]
  · cases u with
    | fin x => simp [JSVal.isNaN] at h
    | inf b => simp [JSVal.isNaN] at h
    | nan => right; cases v <;> simp [JSVal.mul, JSVal.isNaN]
  · cases v with
    | fin x => simp [JSVal.isNaN] at h
    | inf b => simp [JSVal.isNaN] at h
    | nan => right; cases u <;> simp [JSVal.mul, JSVal.isNaN]

/-- Dividing any JS value by zero or `NaN` never yields a finite
number. -/
theorem JSVal.div_zero_or_nan_not_finite (q w : JSVal)
    (h : w = .fin 0 ∨ w.isNaN = true) :
    (q.div w).isFinite = false := by
  rcases h with h | h
  · subst h
    cases q with
    | fin x =>
        simp only [JSVal.div, if_pos rfl]
        split_ifs <;> rfl
    | inf b => simp [JSVal.div, JSVal.isFinite]
    | nan => rfl
  · cases w with
    | fin x => simp [JSVal.isNaN] at h
    | inf b => simp [JSVal.isNaN] at h
    | nan => cases q <;> rfl

theorem JSVal.normalize_not_finite (v : JSVal) (p : ℕ)
    (h : v.isFinite = false) : (v.normalize p).isFinite = false := by
  cases v <;> simp_all [JSVal.normalize, JSVal.isFinite]

/-- Mode selector of the volumetric calculator (radio
`calculationOption`): `volumetricSpeed` derives the volumetric flow
from a given print speed; the other option derives the print speed
from a given volumetric flow. -/
inductive CalcOption : Type
  | volumetricSpeed
  | printSpeed
deriving DecidableEq

/-- Alert messages `calculateVolumetric` accumulates in the alert box:
the red out-of-proportion warning and the orange missing-field
notes. -/
inductive VolAlert : Type
  | proportionWarning
  | missingLayerHeight
  | missingNozzleDiameter
  | missingPrintSpeed
  | missingVolumetricSpeed
deriving DecidableEq

/-- Outcome of `calculateVolumetric`: either the handler returned after
alerting that the third variable is missing, or it displayed a derived
volumetric flow / print speed together with the accumulated alerts. -/
inductive VolOutcome : Type
  | stopped (alerts : List VolAlert)
  | flowResult (alerts : List VolAlert) (value : JSVal)
  | speedResult (alerts : List VolAlert) (value : JSVal)

/-- The handler returned without displaying a result. -/
def VolOutcome.isStopped : VolOutcome → Bool
  | stopped _ => true
  | _ => false

/-- `calculateVolumetric()` from `functions.js`: proportion advisory
and missing-field advisories are accumulated (non-fatal); only a
missing third variable aborts; then `q = h·d·v` or `v = q/(h·d)`. -/
noncomputable def calculateVolumetric (layerRaw nozzleRaw : JSVal)
    (calcOpt : CalcOption) (thirdRaw : JSVal) : VolOutcome :=
  let layerHeight := layerRaw.normalize 2
  let nozzleDiameter := nozzleRaw.normalize 1
  let minHeight := (nozzleDiameter.mul (.fin 0.2)).normalize 2
  let maxHeight := (nozzleDiameter.mul (.fin 0.8)).normalize 2
  let alerts :=
    (if !layerHeight.isNaN && !nozzleDiameter.isNaN
        && (layerHeight.lt minHeight || maxHeight.lt layerHeight)
      then [VolAlert.proportionWarning] else [])
    ++ (if layerHeight.isNaN then [VolAlert.missingLayerHeight] else [])
    ++ (if nozzleDiameter.isNaN then [VolAlert.missingNozzleDiameter] else [])
  match calcOpt with
  | .volumetricSpeed =>
      let printSpeed := thirdRaw.normalize 2
      if printSpeed.isNaN then .stopped (alerts ++ [VolAlert.missingPrintSpeed])
      else .flowResult alerts (((layerHeight.mul nozzleDiameter).mul printSpeed).normalize 2)
  | .printSpeed =>
      let volumetricSpeed := thirdRaw.normalize 2
      if volumetricSpeed.isNaN then .stopped (alerts ++ [VolAlert.missingVolumetricSpeed])
      else .speedResult alerts ((volumetricSpeed.div (layerHeight.mul nozzleDiameter)).normalize 2)

/-- C2: round-trip consistency of the volumetric calculator: layer
height 0.2, nozzle 0.4 and print speed 60 in solve-for-flow mode give
volumetric flow exactly 4.8 (with no alerts), and volumetric flow 4.8
with the same layer height and nozzle in solve-for-speed mode gives
print speed exactly 60. -/
theorem calculateVolumetric_round_trip :
    calculateVolumetric (.fin 0.2) (.fin 0.4) .volumetricSpeed (.fin 60)
        = .flowResult [] (.fin 4.8)
      ∧ calculateVolumetric (.fin 0.2) (.fin 0.4) .printSpeed (.fin 4.8)
        = .speedResult [] (.fin 60) := by
  have hn02 : normalizeNumber (0.2 : ℝ) 2 = 0.2 :=
    normalizeNumber_eq_self _ _ 20 (by norm_num)
  have hn04 : normalizeNumber (0.4 : ℝ) 1 = 0.4 :=
    normalizeNumber_eq_self _ _ 4 (by norm_num)
  have hn60 : normalizeNumber (60 : ℝ) 2 = 60 :=
    normalizeNumber_eq_self _ _ 6000 (by norm_num)
  have hn48 : normalizeNumber (4.8 : ℝ) 2 = 4.8 :=
    normalizeNumber_eq_self _ _ 480 (by norm_num)
  have hmin : normalizeNumber ((0.4 : ℝ) * 0.2) 2 = 0.08 := by
    rw [show (0.4 : ℝ) * 0.2 = 0.08 by norm_num]
    exact normalizeNumber_eq_self _ _ 8 (by norm_num)
  have hmax : normalizeNumber ((0.4 : ℝ) * 0.8) 2 = 0.32 := by
    rw [show (0.4 : ℝ) * 0.8 = 0.32 by norm_num]
    exact normalizeNumber_eq_self _ _ 32 (by norm_num)
  have hlt1 : JSVal.lt (.fin 0.2) (.fin 0.08) = false :=
    JSVal.lt_fin_fin_false _ _ (by norm_num)
  have hlt2 : JSVal.lt (.fin 0.32) (.fin 0.2) = false :=
    JSVal.lt_fin_fin_false _ _ (by norm_num)
  have hflow : normalizeNumber ((0.2 : ℝ) * 0.4 * 60) 2 = 4.8 := by
    rw [show (0.2 : ℝ) * 0.4 * 60 = 4.8 by norm_num]
    exact hn48
  have hdiv : (JSVal.fin (4.8 : ℝ)).div (.fin (0.2 * 0.4)) = .fin (4.8 / (0.2 * 0.4)) :=
    JSVal.div_fin_fin _ _ (by norm_num)
  have hspeed : normalizeNumber ((4.8 : ℝ) / (0.2 * 0.4)) 2 = 60 := by
    rw [show (4.8 : ℝ) / (0.2 * 0.4) = 60 by norm_num]
    exact hn60
  constructor
  · unfold calculateVolumetric
    simp [JSVal.normalize_fin, JSVal.isNaN_fin, hn02, hn04, hn60,
      JSVal.mul_fin_fin, hmin, hmax, hlt1, hlt2, hflow]
  · unfold calculateVolumetric
    simp [JSVal.normalize_fin, JSVal.isNaN_fin, hn02, hn04, hn48,
      JSVal.mul_fin_fin, hmin, hmax, hlt1, hlt2, hdiv, hspeed]

/-- C5 fails as stated: a layer height that parses to 0 in
solve-for-speed mode is NOT treated as a precondition failure of the
branch — with layer height 0, nozzle 0.4 and volumetric flow 4.8 the
handler does not stop; it emits only the non-fatal proportion advisory
and displays the division result `Infinity`. -/
theorem calculateVolumetric_zero_height_not_stopped :
    calculateVolumetric (.fin 0) (.fin 0.4) .printSpeed (.fin 4.8)
        = .speedResult [.proportionWarning] (.inf true)
      ∧ (calculateVolumetric (.fin 0) (.fin 0.4) .printSpeed (.fin 4.8)).isStopped
        = false := by
  have hn0 : normalizeNumber (0 : ℝ) 2 = 0 :=
    normalizeNumber_eq_self _ _ 0 (by norm_num)
  have hn04 : normalizeNumber (0.4 : ℝ) 1 = 0.4 :=
    normalizeNumber_eq_self _ _ 4 (by norm_num)
  have hn48 : normalizeNumber (4.8 : ℝ) 2 = 4.8 :=
    normalizeNumber_eq_self _ _ 480 (by norm_num)
  have hmin : normalizeNumber ((0.4 : ℝ) * 0.2) 2 = 0.08 := by
    rw [show (0.4 : ℝ) * 0.2 = 0.08 by norm_num]
    exact normalizeNumber_eq_self _ _ 8 (by norm_num)
  have hmax : normalizeNumber ((0.4 : ℝ) * 0.8) 2 = 0.32 := by
    rw [show (0.4 : ℝ) * 0.8 = 0.32 by norm_num]
    exact normalizeNumber_eq_self _ _ 32 (by norm_num)
  have hlt1 : JSVal.lt (.fin 0) (.fin 0.08) = true :=
    JSVal.lt_fin_fin_true _ _ (by norm_num)
  have hprodz : (0 : ℝ) * 0.4 = 0 := by norm_num
  have hdiv : (JSVal.fin (4.8 : ℝ)).div (.fin 0) = .inf true :=
    JSVal.div_fin_zero_pos _ (by norm_num)
  have hmain : calculateVolumetric (.fin 0) (.fin 0.4) .printSpeed (.fin 4.8)
      = .speedResult [.proportionWarning] (.inf true) := by
    unfold calculateVolumetric
    simp [JSVal.normalize_fin, JSVal.isNaN_fin, hn0, hn04, hn48,
      JSVal.mul_fin_fin, hmin, hmax, hlt1, hprodz, hdiv, JSVal.normalize_inf]
  exact ⟨hmain, by rw [hmain]; rfl⟩

/-- C5, as the code actually behaves: zero-or-missing layer height or
nozzle diameter does not stop the solve-for-speed branch (at most
advisories are emitted), but the division `q / (h·d)` then surfaces as
`Infinity` or `NaN` — never as a silently wrong finite number. -/
theorem calculateVolumetric_div_by_zero_not_finite
    (layerRaw nozzleRaw thirdRaw : JSVal)
    (hq : (thirdRaw.normalize 2).isNaN = false)
    (hzero : layerRaw.normalize 2 = .fin 0 ∨ nozzleRaw.normalize 1 = .fin 0
      ∨ (layerRaw.normalize 2).isNaN = true ∨ (nozzleRaw.normalize 1).isNaN = true) :
    ∃ (alerts : List VolAlert) (r : JSVal),
      calculateVolumetric layerRaw nozzleRaw .printSpeed thirdRaw
          = .speedResult alerts r ∧ r.isFinite = false := by
  have hprod := JSVal.mul_zero_or_nan _ _ hzero
  have hfin : (((thirdRaw.normalize 2).div
      ((layerRaw.normalize 2).mul (nozzleRaw.normalize 1))).normalize 2).isFinite
        = false :=
    JSVal.normalize_not_finite _ _ (JSVal.div_zero_or_nan_not_finite _ _ hprod)
  unfold calculateVolumetric
  simp only [hq, Bool.false_eq_true, if_false]
  exact ⟨_, _, rfl, hfin⟩

/-- Witness for `calculateVolumetric_div_by_zero_not_finite` at layer
height 0, nozzle 0.4, volumetric flow 4.8. -/
theorem calculateVolumetric_div_by_zero_not_finite_witness :
    ∃ (alerts : List VolAlert) (r : JSVal),
      calculateVolumetric (.fin 0) (.fin 0.4) .printSpeed (.fin 4.8)
          = .speedResult alerts r ∧ r.isFinite = false :=
  calculateVolumetric_div_by_zero_not_finite (.fin 0) (.fin 0.4) (.fin 4.8)
    rfl
    (Or.inl (by rw [JSVal.normalize_fin, normalizeNumber_eq_self (0 : ℝ) 2 0 (by norm_num)]))

/-- Slicer selector of the PBC calculator (radio `software`): Orca, or
any other slicer. -/
inductive Software : Type
  | orca
  | other
deriving DecidableEq

/-- Outcome of `calculatePBC`: the out-of-range message, or a displayed
layer height together with whether it was marked valid (shown with
"(válido)") rather than flagged red with the try-another-angle
suggestion. -/
inductive PBCOutcome : Type
  | rangeError
  | heightResult (height : JSVal) (valid : Bool)

/-- `calculatePBC()` from `functions.js`: range-checks the angle,
adjusts it per slicer convention, derives the layer height from the
tangent, and validates it against the 20%–80% bounds and the 0.02 mm
step resolution. -/
noncomputable def calculatePBC (angleRaw : JSVal) (software : Software)
    (nozzleRaw : JSVal) : PBCOutcome :=
  let angleInput := angleRaw.normalize 2
  let selectedNozzle := nozzleRaw.normalize 1
  if angleInput.isNaN || angleInput.lt (.fin 1) || (JSVal.fin 89).lt angleInput then
    .rangeError
  else
    let orcaAngle := if software = .orca then angleInput else (JSVal.fin 90).sub angleInput
    let angleRad := orcaAngle.mul (.fin (Real.pi / 180))
    let layerHeight := (angleRad.tan.mul (selectedNozzle.div (.fin 2))).normalize 2
    let formattedHeight := layerHeight.normalize 2
    let minHeight := (selectedNozzle.mul (.fin 0.2)).normalize 2
    let maxHeight := (selectedNozzle.mul (.fin 0.8)).normalize 2
    let outOfLimits := formattedHeight.lt minHeight || maxHeight.lt formattedHeight
    let roundedHeight :=
      ((((formattedHeight.div (.fin 0.02)).jround.mul (.fin 0.02)).normalize 2).normalize 2)
    let isWithinBounds := ((formattedHeight.sub roundedHeight).abs).lt (.fin 0.001)
    .heightResult formattedHeight (isWithinBounds && !outOfLimits)

/-- The layer height the PBC calculator derives:
`tan(radians(effectiveAngle)) * (d / 2)` normalized to 2 decimals,
where the effective angle is the input angle under the Orca convention
and its complement otherwise. -/
noncomputable def pbcLayerHeight (a : ℝ) (software : Software) (d : ℝ) : ℝ :=
  normalizeNumber (Real.tan ((if software = Software.orca then normalizeNumber a 2
      else 90 - normalizeNumber a 2) * (Real.pi / 180)) * (normalizeNumber d 1 / 2)) 2

/-- A two-decimal value passes the code's `|x − round(x/0.02)·0.02| <
0.001` test exactly when it is within 0.001 of some multiple of
0.02. -/
theorem pbcStep_iff (x : ℝ) (j : ℤ) (hx : x * 100 = (j : ℝ)) :
    (|x - ((round (x / 0.02) : ℤ) : ℝ) * 0.02| < 0.001
      ↔ ∃ m : ℤ, |x - (m : ℝ) * 0.02| < 0.001) := by
  constructor
  · intro h
    exact ⟨round (x / 0.02), h⟩
  · rintro ⟨m, hm⟩
    have hx' : x = (j : ℝ) / 100 := by
      field_simp
      linarith [hx]
    have habs : |x - (m : ℝ) * 0.02| = |(j : ℝ) - 2 * m| / 100 := by
      rw [hx', show (j : ℝ) / 100 - (m : ℝ) * 0.02 = ((j : ℝ) - 2 * m) / 100 by ring,
        abs_div]
      norm_num
    have h2 : |(j : ℝ) - 2 * m| < 1 := by
      rw [habs] at hm
      linarith
    have hcast : |((j - 2 * m : ℤ) : ℝ)| < 1 := by
      push_cast
      exact h2
    have h3 : |j - 2 * m| < 1 := by exact_mod_cast hcast
    have hj0 : j - 2 * m = 0 := by
      rcases abs_lt.mp h3 with ⟨hlo, hhi⟩
      omega
    have hjm : (j : ℝ) = 2 * m := by
      have h4 : j = 2 * m := by omega
      exact_mod_cast h4
    have hxm : x = (m : ℝ) * 0.02 := by
      rw [hx', hjm]
      ring
    have hr : x / 0.02 = (m : ℝ) := by
      rw [hxm, mul_div_assoc]
      norm_num
    rw [hr, round_intCast, hxm]
    norm_num

theorem normalizeNumber_mul_100 (x : ℝ) :
    normalizeNumber x 2 * 100 = ((round (x * 100) : ℤ) : ℝ) := by
  have h := normalizeNumber_mul_pow x 2
  norm_num at h
  exact h

theorem normalizeNumber_exists_int (x : ℝ) :
    ∃ j : ℤ, normalizeNumber x 2 * 100 = (j : ℝ) :=
  ⟨_, normalizeNumber_mul_100 x⟩

/-- The Boolean `isWithinBounds && !outOfLimits` computed by
`calculatePBC` for a displayed height `x` and nozzle diameter `d'`. -/
noncomputable def pbcValidFlag (x dn : ℝ) : Bool :=
  decide (|x - ((round (x / 0.02) : ℤ) : ℝ) * 0.02| < 0.001)
    && !(decide (x < dn * 0.2) || decide (dn * 0.8 < x))

theorem pbcValidFlag_iff (x dn : ℝ) (j : ℤ) (hx : x * 100 = (j : ℝ)) :
    pbcValidFlag x dn = true
      ↔ (0.2 * dn ≤ x ∧ x ≤ 0.8 * dn
          ∧ ∃ m : ℤ, |x - (m : ℝ) * 0.02| < 0.001) := by
  unfold pbcValidFlag
  simp only [Bool.and_eq_true, decide_eq_true_eq, Bool.not_eq_true',
    Bool.or_eq_false_iff, decide_eq_false_iff_not, not_lt]
  rw [pbcStep_iff x j hx]
  constructor
  · rintro ⟨hnear, hge, hle⟩
    exact ⟨by linarith, by linarith, hnear⟩
  · rintro ⟨hge, hle, hnear⟩
    exact ⟨hnear, by linarith, by linarith⟩

/-- In-range angles drive `calculatePBC` to display the normalized
tangent-derived height together with the code's validity flag. -/
theorem calculatePBC_run (a d : ℝ) (software : Software)
    (h1 : 1 ≤ normalizeNumber a 2) (h2 : normalizeNumber a 2 ≤ 89) :
    calculatePBC (.fin a) software (.fin d)
      = .heightResult (.fin (pbcLayerHeight a software d))
          (pbcValidFlag (pbcLayerHeight a software d) (normalizeNumber d 1)) := by
  have hlt1 : JSVal.lt (.fin (normalizeNumber a 2)) (.fin 1) = false :=
    JSVal.lt_fin_fin_false _ _ (not_lt.2 h1)
  have hlt89 : JSVal.lt (.fin 89) (.fin (normalizeNumber a 2)) = false :=
    JSVal.lt_fin_fin_false _ _ (not_lt.2 h2)
  have hd2 : (JSVal.fin (normalizeNumber d 1)).div (.fin 2)
      = .fin (normalizeNumber d 1 / 2) := JSVal.div_fin_fin _ _ two_ne_zero
  have hdiv02 : ∀ z : ℝ, (JSVal.fin z).div (.fin 0.02) = .fin (z / 0.02) :=
    fun z => JSVal.div_fin_fin _ _ (by norm_num)
  have hstep : ∀ k : ℤ, normalizeNumber ((k : ℝ) * 0.02) 2 = (k : ℝ) * 0.02 :=
    fun k => normalizeNumber_eq_self _ _ (2 * k) (by push_cast; ring)
  have h10 := normalizeNumber_mul_pow d 1
  have hminn : normalizeNumber (normalizeNumber d 1 * 0.2) 2
      = normalizeNumber d 1 * 0.2 := by
    apply normalizeNumber_eq_self _ _ (2 * round (d * 10 ^ 1))
    calc normalizeNumber d 1 * 0.2 * 10 ^ 2
        = normalizeNumber d 1 * 10 ^ 1 * 2 := by ring
      _ = ((round (d * 10 ^ 1) : ℤ) : ℝ) * 2 := by rw [h10]
      _ = ((2 * round (d * 10 ^ 1) : ℤ) : ℝ) := by push_cast; ring
  have hmaxn : normalizeNumber (normalizeNumber d 1 * 0.8) 2
      = normalizeNumber d 1 * 0.8 := by
    apply normalizeNumber_eq_self _ _ (8 * round (d * 10 ^ 1))
    calc normalizeNumber d 1 * 0.8 * 10 ^ 2
        = normalizeNumber d 1 * 10 ^ 1 * 8 := by ring
      _ = ((round (d * 10 ^ 1) : ℤ) : ℝ) * 8 := by rw [h10]
      _ = ((8 * round (d * 10 ^ 1) : ℤ) : ℝ) := by push_cast; ring
  cases software <;>
    simp [calculatePBC, pbcLayerHeight, pbcValidFlag, JSVal.normalize_fin,
      JSVal.isNaN_fin, hlt1, hlt89, JSVal.sub_fin_fin, JSVal.mul_fin_fin,
      JSVal.tan_fin, hd2, hdiv02, JSVal.jround_fin, JSVal.abs_fin,
      JSVal.lt_fin_fin, normalizeNumber_idem, hstep, hminn, hmaxn]

/-- C3: for every angle parsing to a value in [1, 89], the PBC
calculator uses the input angle under the Orca convention and its
complement otherwise, displays
`tan(radians(effectiveAngle)) * (d/2)` normalized to 2 decimals, and
marks it valid exactly when it lies within [0.2·d, 0.8·d] and within
0.001 mm of a multiple of 0.02 mm (both conditions); in particular 45°,
Orca convention, nozzle 0.4 mm gives 0.2 mm marked valid. -/
theorem calculatePBC_height_and_validity (a d : ℝ) (software : Software)
    (h1 : 1 ≤ normalizeNumber a 2) (h2 : normalizeNumber a 2 ≤ 89) :
    (∃ valid : Bool,
      calculatePBC (.fin a) software (.fin d)
          = .heightResult (.fin (pbcLayerHeight a software d)) valid
        ∧ (valid = true ↔
            (0.2 * normalizeNumber d 1 ≤ pbcLayerHeight a software d
              ∧ pbcLayerHeight a software d ≤ 0.8 * normalizeNumber d 1
              ∧ ∃ m : ℤ, |pbcLayerHeight a software d - (m : ℝ) * 0.02| < 0.001)))
      ∧ calculatePBC (.fin 45) .orca (.fin 0.4) = .heightResult (.fin 0.2) true := by
  constructor
  · obtain ⟨j, hj⟩ : ∃ j : ℤ, pbcLayerHeight a software d * 100 = (j : ℝ) := by
      unfold pbcLayerHeight
      exact normalizeNumber_exists_int _
    exact ⟨pbcValidFlag (pbcLayerHeight a software d) (normalizeNumber d 1),
      calculatePBC_run a d software h1 h2,
      pbcValidFlag_iff _ _ j hj⟩
  · have hn45 : normalizeNumber (45 : ℝ) 2 = 45 :=
      normalizeNumber_eq_self _ _ 4500 (by norm_num)
    have h1' : 1 ≤ normalizeNumber (45 : ℝ) 2 := by rw [hn45]; norm_num
    have h2' : normalizeNumber (45 : ℝ) 2 ≤ 89 := by rw [hn45]; norm_num
    have hn04 : normalizeNumber (0.4 : ℝ) 1 = 0.4 :=
      normalizeNumber_eq_self _ _ 4 (by norm_num)
    have hLH : pbcLayerHeight 45 .orca 0.4 = 0.2 := by
      unfold pbcLayerHeight
      rw [if_pos rfl, hn45, hn04]
      rw [show (45 : ℝ) * (Real.pi / 180) = Real.pi / 4 by ring]
      rw [Real.tan_pi_div_four]
      rw [show (1 : ℝ) * (0.4 / 2) = 0.2 by norm_num]
      exact normalizeNumber_eq_self _ _ 20 (by norm_num)
    have hflag : pbcValidFlag 0.2 0.4 = true := by
      unfold pbcValidFlag
      have hq : (0.2 : ℝ) / 0.02 = 10 := by norm_num
      have hr10 : round ((10 : ℝ)) = 10 := by
        rw [show ((10 : ℝ)) = ((10 : ℤ) : ℝ) by norm_num]
        exact round_intCast 10
      rw [hq, hr10]
      simp only [Bool.and_eq_true, decide_eq_true_eq, Bool.not_eq_true',
        Bool.or_eq_false_iff, decide_eq_false_iff_not, not_lt]
      refine ⟨by push_cast; norm_num, by norm_num, by norm_num⟩
    have hrun := calculatePBC_run 45 0.4 .orca h1' h2'
    rw [hLH, hn04, hflag] at hrun
    exact hrun

/-- Witness for `calculatePBC_height_and_validity` at 45°, Orca,
nozzle 0.4. -/
theorem calculatePBC_height_and_validity_witness :
    calculatePBC (.fin 45) Software.orca (.fin 0.4) = .heightResult (.fin 0.2) true := by
  have hn45 : normalizeNumber (45 : ℝ) 2 = 45 :=
    normalizeNumber_eq_self _ _ 4500 (by norm_num)
  exact (calculatePBC_height_and_validity 45 0.4 Software.orca
    (by rw [hn45]; norm_num) (by rw [hn45]; norm_num)).2

/-- C7: an angle that fails to parse or whose parsed value falls
outside [1, 89] makes the PBC calculator stop with the range message
and no computed height; in particular 0° and 90° are rejected for
every slicer convention and nozzle input. -/
theorem calculatePBC_range_rejection (a : ℝ) (software : Software) (nozzleRaw : JSVal)
    (h : normalizeNumber a 2 < 1 ∨ 89 < normalizeNumber a 2) :
    calculatePBC (.fin a) software nozzleRaw = .rangeError
      ∧ calculatePBC .nan software nozzleRaw = .rangeError
      ∧ calculatePBC (.fin 0) software nozzleRaw = .rangeError
      ∧ calculatePBC (.fin 90) software nozzleRaw = .rangeError := by
  have hn0 : normalizeNumber (0 : ℝ) 2 = 0 :=
    normalizeNumber_eq_self _ _ 0 (by norm_num)
  have hn90 : normalizeNumber (90 : ℝ) 2 = 90 :=
    normalizeNumber_eq_self _ _ 9000 (by norm_num)
  refine ⟨?_, ?_, ?_, ?_⟩
  · rcases h with h | h
    · have hb : JSVal.lt (.fin (normalizeNumber a 2)) (.fin 1) = true :=
        JSVal.lt_fin_fin_true _ _ h
      simp [calculatePBC, JSVal.normalize_fin, JSVal.isNaN_fin, hb]
    · have hb : JSVal.lt (.fin 89) (.fin (normalizeNumber a 2)) = true :=
        JSVal.lt_fin_fin_true _ _ h
      simp [calculatePBC, JSVal.normalize_fin, JSVal.isNaN_fin, hb]
  · simp [calculatePBC, JSVal.normalize_nan, JSVal.isNaN]
  · have hb : JSVal.lt (.fin (normalizeNumber (0 : ℝ) 2)) (.fin 1) = true := by
      rw [hn0]
      exact JSVal.lt_fin_fin_true _ _ (by norm_num)
    simp [calculatePBC, JSVal.normalize_fin, JSVal.isNaN_fin, hb]
  · have hb : JSVal.lt (.fin 89) (.fin (normalizeNumber (90 : ℝ) 2)) = true := by
      rw [hn90]
      exact JSVal.lt_fin_fin_true _ _ (by norm_num)
    simp [calculatePBC, JSVal.normalize_fin, JSVal.isNaN_fin, hb]

/-- Witness for `calculatePBC_range_rejection`: angle 90.5 is out of
range, and the angle-90 conjunct is exercised concretely. -/
theorem calculatePBC_range_rejection_witness :
    calculatePBC (.fin 90) Software.orca (.fin 0.4) = .rangeError := by
  have h : normalizeNumber (90.5 : ℝ) 2 < 1 ∨ 89 < normalizeNumber (90.5 : ℝ) 2 :=
    Or.inr (by
      rw [normalizeNumber_eq_self (90.5 : ℝ) 2 9050 (by norm_num)]
      norm_num)
  exact (calculatePBC_range_rejection 90.5 Software.orca (.fin 0.4) h).2.2.2

/-- Witness for `calculateCriticalExtrusionAngle_conventions` at
nozzle 0.4, layer height 0.2. -/
theorem calculateCriticalExtrusionAngle_conventions_witness :
    calculateCriticalExtrusionAngle (.fin 0.4) (.fin 0.2) .orca
      = .angleResult .orca (.fin 45) := by
  have hd : 0 < normalizeNumber (0.4 : ℝ) 1 := by
    rw [normalizeNumber_eq_self (0.4 : ℝ) 1 4 (by norm_num)]
    norm_num
  have hh : 0 < normalizeNumber (0.2 : ℝ) 2 := by
    rw [normalizeNumber_eq_self (0.2 : ℝ) 2 20 (by norm_num)]
    norm_num
  exact (calculateCriticalExtrusionAngle_conventions 0.4 0.2 hd hh).2.2

/-- Witness for `calculateCriticalExtrusionAngle_zero_nozzle` at
nozzle 0, layer height 0.2. -/
theorem calculateCriticalExtrusionAngle_zero_nozzle_witness :
    calculateCriticalExtrusionAngle (.fin 0) (.fin 0.2) .cura
      = .angleResult .cura (.fin 0) := by
  have hd : normalizeNumber (0 : ℝ) 1 = 0 :=
    normalizeNumber_eq_self _ _ 0 (by norm_num)
  have hh : 0 < normalizeNumber (0.2 : ℝ) 2 := by
    rw [normalizeNumber_eq_self (0.2 : ℝ) 2 20 (by norm_num)]
    norm_num
  exact (calculateCriticalExtrusionAngle_zero_nozzle 0 0.2 hd hh).1
